import Mathlib

/-!
Verification development for the Sentinel-2 true-color imagery request
pipeline (`src/aoi_handler.py`, `src/sentinel2_query.py`,
`src/image_processor.py`, `main.py`).

The Python functions are shallowly embedded as Lean definitions:

* Shapely geometries are modelled by `Geom`, a finite union of half-open
  unit grid cells together with a finite set of zero-area point features;
  intersection, union, area and the intersects test follow Shapely's
  semantics on this fragment.
* Floating-point reflectance / area arithmetic is idealised as `ℚ`.
* A Python function that can raise returns `Option`/`Except`; `none` or
  `Except.error` marks a raised exception.
* numpy rasters are `Rast` (height, width, and a sample function).

Theorems about the claims follow the definitions.
-/

/-- A planar geometry in the fragment handled by the coverage logic: a
finite union of half-open unit grid cells (cell `(i, j)` is the square
`[i, i+1) ×[j, j+1)`, of area 1) together with a finite set of degenerate
zero-area point features (point `(i, j)` is the centre of cell `(i, j)`).
This models the Shapely geometries consumed by
`aoi_handler.check_coverage`. -/
structure Geom where
  cells : Finset (ℤ × ℤ)
  pts : Finset (ℤ × ℤ)
deriving DecidableEq

/-- Shapely `geometry.is_empty`. -/
def gIsEmpty (g : Geom) : Bool := decide (g.cells = ∅ ∧ g.pts = ∅)

/-- Shapely `g.intersection(h)` on the modelled fragment: common cells keep
their area; a point survives when the other geometry contains it (as an
equal point, or as the centre of one of its cells). -/
def gInter (g h : Geom) : Geom :=
  ⟨g.cells ∩ h.cells, ((g.pts ∩ h.pts) ∪ (g.pts ∩ h.cells)) ∪ (g.cells ∩ h.pts)⟩

/-- Shapely `g.intersects(h)`: the intersection is non-empty. -/
def gIntersects (g h : Geom) : Bool := !gIsEmpty (gInter g h)

/-- Shapely `g.union(h)` restricted to the modelled fragment. -/
def gUnion (g h : Geom) : Geom := ⟨g.cells ∪ h.cells, g.pts ∪ h.pts⟩

/-- Model of `shapely.ops.unary_union` on a list of geometries. -/
def unary_union (l : List Geom) : Geom := l.foldl gUnion ⟨∅, ∅⟩

/-- Shapely `geometry.area`: each cell contributes area 1, points
contribute 0.  Kept in `ℚ` (the float arithmetic is idealised). -/
def area (g : Geom) : ℚ := g.cells.card

/-- Shallow embedding of `aoi_handler.check_coverage`.  Mirrors the source:
a non-intersecting candidate short-circuits to `(0.0, False)`; otherwise
the coverage percentage is `intersection.area / aoi_geometry.area * 100`
and the flag is `coverage_pct >= 99.9`.  The division raises
`ZeroDivisionError` in Python when `aoi_geometry.area` is zero, modelled
here by `none`. -/
def check_coverage (aoi_geometry image_geometry : Geom) : Option (ℚ × Bool) :=
  if gIntersects image_geometry aoi_geometry = false then some (0, false)
  else if area aoi_geometry = 0 then none
  else
    let coverage_pct := area (gInter image_geometry aoi_geometry) / area aoi_geometry * 100
    some (coverage_pct, decide ((999 : ℚ) / 10 ≤ coverage_pct))

/-- The coverage percentage `check_coverage` computes when it does not
raise: 0 for a non-intersecting candidate, the area ratio otherwise. -/
def covPct (aoi_geometry image_geometry : Geom) : ℚ :=
  if gIntersects image_geometry aoi_geometry
  then area (gInter image_geometry aoi_geometry) / area aoi_geometry * 100
  else 0

/-- The 99.9-percent full-coverage criterion of the selection stage. -/
def fully_covers (aoi_geometry image_geometry : Geom) : Bool :=
  decide ((999 : ℚ) / 10 ≤ covPct aoi_geometry image_geometry)

/-- A STAC item as the date-selection stage sees it: the acquisition
timestamp string (`properties['datetime']`), the footprint geometry and
the `eo:cloud_cover` percentage (diagnostic only). -/
structure Item where
  datetime : String
  geom : Geom
  cloud : ℚ

/-- The calendar-day key used for grouping: `item.properties['datetime'][:10]`. -/
def dateOf (item : Item) : String := item.datetime.take 10

/-- The distinct date keys, in first-occurrence order, of
`items_by_date = defaultdict(list)` filled by the grouping loop. -/
def keyList (items : List Item) : List String :=
  items.foldl (fun acc it => if dateOf it ∈ acc then acc else acc ++ [dateOf it]) []

/-- The tile group of one date key, in insertion order. -/
def groupFor (items : List Item) (d : String) : List Item :=
  items.filter (fun it => dateOf it == d)

/-- The grouped dictionary `items_by_date` as an association list in key
insertion order. -/
def groupsByDate (items : List Item) : List (String × List Item) :=
  (keyList items).map (fun d => (d, groupFor items d))

/-- The comparison used by `sorted(items_by_date.items())`: keys are
unique, so Python's tuple order reduces to the date-string order. -/
def dateLe (g h : String × List Item) : Bool := decide (g.1 ≤ h.1)

/-- Model of `sorted(items_by_date.items())`. -/
def sortedGroups (items : List Item) : List (String × List Item) :=
  (groupsByDate items).mergeSort dateLe

/-- The per-date selection loop of `search_sentinel2_images`: merge the
date's footprints, run `check_coverage`, keep the date when it is fully
covered.  A raised `ZeroDivisionError` (`none` from `check_coverage`)
aborts the whole loop, as the uncaught exception does in Python. -/
def selectDates (aoi_geometry : Geom) : List (String × List Item) → Option (List (String × List Item))
  | [] => some []
  | g :: rest =>
    match check_coverage aoi_geometry (unary_union (g.2.map Item.geom)) with
    | none => none
    | some (_, is_covered) =>
      match selectDates aoi_geometry rest with
      | none => none
      | some m => if is_covered then some (g :: m) else some m

/-- Shallow embedding of `sentinel2_query.search_sentinel2_images` from the
point where the external STAC catalog has returned its items: group the
items by calendar day, iterate the dates in ascending order, and retain
exactly the dates whose merged footprint fully covers the AOI.  `none`
models an exception escaping the function. -/
def search_sentinel2_images (items : List Item) (aoi_geometry : Geom) :
    Option (List (String × List Item)) :=
  selectDates aoi_geometry (sortedGroups items)

/-- Python `int()` applied to a float: truncation toward zero. -/
def pyInt (q : ℚ) : ℤ := if 0 ≤ q then ⌊q⌋ else ⌈q⌉

/-- Model of `np.clip(x, lo, hi)`. -/
def rclip (x lo hi : ℚ) : ℚ := min (max x lo) hi

/-- Model of `astype(np.uint8)` on a float sample: C-style truncation toward zero,
then reduction modulo 256. -/
def toUint8 (q : ℚ) : ℕ := ((pyInt q) % 256).toNat

/-- An in-memory raster: height, width and a sample function
(row, column, band index).  Models the numpy `(H, W, 3)` arrays. -/
structure Rast where
  H : ℕ
  W : ℕ
  data : ℕ → ℕ → ℕ → ℚ

/-- The per-sample computation of `normalize_for_display`: reflectance
`v / 10000`, linear `gain`, clip to `[0, 1]`, scale by 255 and cast to
`uint8`. -/
def normalize_band (gain v : ℚ) : ℕ := toUint8 (rclip (v / 10000 * gain) 0 1 * 255)

/-- An 8-bit display raster. -/
structure RastU8 where
  H : ℕ
  W : ℕ
  data : ℕ → ℕ → ℕ → ℕ

/-- The default gain of `normalize_for_display`. -/
def defaultGain : ℚ := 5 / 2

/-- Shallow embedding of `image_processor.normalize_for_display`: the
output has the input's dimensions and every band of every pixel goes
through `normalize_band`. -/
def normalize_for_display (rgb_array : Rast) (gain : ℚ) : RastU8 :=
  ⟨rgb_array.H, rgb_array.W, fun r c k => normalize_band gain (rgb_array.data r c k)⟩

/-- A rasterio affine transform `(a, b, c, d, e, f)`: `a` is the pixel
width (`transform[0]`), `e` the signed pixel height, `b, d` the rotation
terms and `(c, f)` the origin. -/
structure Affine where
  a : ℚ
  b : ℚ
  c : ℚ
  d : ℚ
  e : ℚ
  f : ℚ
deriving DecidableEq

/-- The slice of a rasterio profile the resampler reads and writes. -/
structure Profile where
  transform : Affine
  height : ℕ
  width : ℕ
  crs : ℕ
deriving DecidableEq

/-- Reading a source sample with zero padding outside the grid (the fill
value of the `np.zeros` destination). -/
def sampleAt (r : Rast) (k : ℕ) (i j : ℤ) : ℚ :=
  if 0 ≤ i ∧ i < (r.H : ℤ) ∧ 0 ≤ j ∧ j < (r.W : ℤ) then r.data i.toNat j.toNat k else 0

/-- The fractional source row of a destination pixel centre under
axis-aligned source and destination transforms sharing one CRS.  Models
the grid mapping of `rasterio.warp.reproject`. -/
def srcRowOf (srcT dstT : Affine) (i : ℕ) : ℚ :=
  ((dstT.e * ((i : ℚ) + 1 / 2) + dstT.f) - srcT.f) / srcT.e - 1 / 2

/-- The fractional source column of a destination pixel centre. -/
def srcColOf (srcT dstT : Affine) (j : ℕ) : ℚ :=
  ((dstT.a * ((j : ℚ) + 1 / 2) + dstT.c) - srcT.c) / srcT.a - 1 / 2

/-- Bilinear interpolation of one destination sample from the source grid.
Models `rasterio.warp.reproject` with `Resampling.bilinear` for
axis-aligned transforms in a shared CRS (the external reprojection
library). -/
def bilinearSample (r : Rast) (srcT dstT : Affine) (i j k : ℕ) : ℚ :=
  let sr := srcRowOf srcT dstT i
  let sc := srcColOf srcT dstT j
  let i0 := ⌊sr⌋
  let j0 := ⌊sc⌋
  let di := sr - i0
  let dj := sc - j0
  (1 - di) * (1 - dj) * sampleAt r k i0 j0 + (1 - di) * dj * sampleAt r k i0 (j0 + 1) +
    di * (1 - dj) * sampleAt r k (i0 + 1) j0 + di * dj * sampleAt r k (i0 + 1) (j0 + 1)

/-- Shallow embedding of `image_processor.resample_to_resolution`.  Mirrors
the source: the current pixel size is `profile['transform'][0]`; within
the 0.01 tolerance the input is returned untouched; otherwise the new
dimensions are `int(old * current / target)`, the new transform keeps the
origin and rotation terms with pixel size `target` (vertical size
`-target`), and each band is reprojected bilinearly into the new grid.
`none` models a raised exception on a degenerate dimension: `np.zeros`
raises `ValueError` on a negative dimension, and on a zero dimension the
`rasterio.warp.reproject` call raises because GDAL refuses to create a
zero-sized in-memory destination dataset. -/
def resample_to_resolution (rgb_array : Rast) (profile : Profile) (target_resolution : ℚ) :
    Option (Rast × Profile) :=
  if |profile.transform.a - target_resolution| < 1 / 100 then some (rgb_array, profile)
  else
    let scale_factor := profile.transform.a / target_resolution
    let nh := pyInt ((profile.height : ℚ) * scale_factor)
    let nw := pyInt ((profile.width : ℚ) * scale_factor)
    if nh < 1 ∨ nw < 1 then none
    else
      let t := profile.transform
      let new_transform : Affine := ⟨target_resolution, t.b, t.c, t.d, -target_resolution, t.f⟩
      let out : Rast :=
        ⟨nh.toNat, nw.toNat, fun i j k => bilinearSample rgb_array t new_transform i j k⟩
      some (out, { profile with
        height := nh.toNat, width := nw.toNat, transform := new_transform })

/-- Resampling methods of `rasterio.enums.Resampling` used by the loader. -/
inductive ResamplingMethod where
  | nearest
  | bilinear
deriving DecidableEq

/-- A tile's opened band asset as the CRS logic of `load_and_crop_bands`
sees it: only its coordinate reference system matters here (an EPSG
code). -/
structure SrcTile where
  crs : ℕ
deriving DecidableEq

/-- A dataset entering the mosaic: its CRS, the CRS it was opened with,
and the resampling method of the reprojection that produced it (`none`
when it is the opened dataset itself). -/
structure PrepDS where
  crs : ℕ
  srcCrs : ℕ
  method : Option ResamplingMethod
deriving DecidableEq

/-- A source dataset used as-is (no reprojection). -/
def asIs (t : SrcTile) : PrepDS := ⟨t.crs, t.crs, none⟩

/-- The in-memory reprojection of one source into the target CRS with
`Resampling.bilinear`, as built by the CRS-mismatch branch. -/
def reprojectTile (target : ℕ) (t : SrcTile) : PrepDS := ⟨target, t.crs, some .bilinear⟩

/-- The dataset list entering `merge`: when some source disagrees with the
target CRS, every non-matching source is reprojected (bilinear) and the
matching ones pass through; when all agree they all pass through. -/
def prepareTiles (target : ℕ) (srcs : List SrcTile) : List PrepDS :=
  if srcs.any (fun s => s.crs ≠ target) then
    srcs.map (fun s => if s.crs ≠ target then reprojectTile target s else asIs s)
  else srcs.map asIs

/-- The result of one band's load/mosaic/crop pass: the CRS of the band's
raster and the datasets that were merged (or the single cropped source). -/
structure BandResult where
  crs : ℕ
  used : List PrepDS
deriving DecidableEq

/-- One iteration of the band loop of `load_and_crop_bands`, restricted to
its reference-frame behaviour: the target CRS is the CRS of the first
opened tile; with several tiles the (possibly reprojected) sources are
mosaicked and the profile CRS is set to the target; with a single tile the
source is cropped directly and its profile is kept.  `none` models the
`IndexError` an empty tile list raises at `src_files[0]`. -/
def load_band (items : List SrcTile) : Option BandResult :=
  match items with
  | [] => none
  | t0 :: rest =>
    let target_crs := t0.crs
    if rest.isEmpty then some ⟨target_crs, [asIs t0]⟩
    else some ⟨target_crs, prepareTiles target_crs (t0 :: rest)⟩

/-- The three-band result of `load_and_crop_bands` with the profile CRS of
the returned raster. -/
structure LoadResult where
  bands : List BandResult
  profileCrs : ℕ

/-- Shallow embedding of the reference-frame behaviour of
`image_processor.load_and_crop_bands`: the red, green and blue loops run
the same CRS logic (a tile's three band assets share the tile's pixel
grid), and the returned profile is the last band's, whose CRS is the first
opened tile's. -/
def load_and_crop_bands (items : List SrcTile) : Option LoadResult :=
  match load_band items with
  | none => none
  | some br => some ⟨[br, br, br], br.crs⟩

/-- The message of the exception raised when every open attempt failed:
`f"Failed to open {band_name} band after {max_retries} attempts: {str(e)}"`. -/
def openFailMsg (band_name : String) (max_retries : ℕ) (err : String) : String :=
  "Failed to open " ++ band_name ++ " band after " ++ toString max_retries ++
    " attempts: " ++ err

/-- The observable behaviour of one tile's open-retry loop: how many
attempts ran, the sleeps (in seconds) between them, and either the raised
message or whether a dataset was opened (`ok false` is the degenerate
`max_retries = 0` loop that opens nothing). -/
structure RetryTrace where
  attemptsMade : ℕ
  delays : List ℕ
  outcome : Except String Bool

/-- The body of `for attempt in range(max_retries)` around
`rasterio.open`: `attempt k = none` means attempt `k` opens successfully,
`attempt k = some e` means it raises with text `e`.  A failure before the
last attempt sleeps 2 seconds and retries; a failure on the last attempt
raises `openFailMsg`. -/
def retryLoop (band_name : String) (max_retries : ℕ) (attempt : ℕ → Option String) :
    List ℕ → RetryTrace
  | [] => ⟨0, [], .ok false⟩
  | k :: rest =>
    match attempt k with
    | none => ⟨1, [], .ok true⟩
    | some err =>
      match rest with
      | [] => ⟨1, [], .error (openFailMsg band_name max_retries err)⟩
      | r :: rs =>
        let t := retryLoop band_name max_retries attempt (r :: rs)
        ⟨t.attemptsMade + 1, 2 :: t.delays, t.outcome⟩

/-- Shallow embedding of the per-tile open-with-retry logic of
`load_and_crop_bands` (lines 41-51). -/
def open_with_retry (band_name : String) (max_retries : ℕ) (attempt : ℕ → Option String) :
    RetryTrace :=
  retryLoop band_name max_retries attempt (List.range max_retries)

/-- The default retry bound of `load_and_crop_bands`. -/
def defaultMaxRetries : ℕ := 3

/-- Whether string `hay` mentions `needle` as a contiguous substring. -/
def mentions (hay needle : String) : Bool := decide (needle.toList <:+: hay.toList)

/-- The pipeline stages of one date's processing in `main.process_aoi`. -/
inductive Stage where
  | load
  | resample
  | exportTif
  | normalize
  | exportJpg
  | metadata
deriving DecidableEq

/-- The outcome of one date in the orchestrator loop. -/
inductive DateOutcome where
  | alreadyExists
  | skippedAllZero
  | processed
  | failed (msg : String)
deriving DecidableEq

/-- One date's inputs to the orchestrator loop: whether both output files
already exist, and the outcome of `load_and_crop_bands` for that date
(`Except.error` models a raised exception, `Except.ok` the mosaicked and
cropped raster). -/
structure DateTask where
  date : String
  filesExist : Bool
  loadResult : Except String Rast

/-- The samples of a raster in row-major order (three bands per pixel);
the list `np.max` reduces over. -/
def sampleList (r : Rast) : List ℚ :=
  (List.range r.H).flatMap fun i =>
    (List.range r.W).flatMap fun j => [r.data i j 0, r.data i j 1, r.data i j 2]

/-- Model of `rgb_array.max()`: `none` models the `ValueError` numpy raises on an
empty array. -/
def rastMax (r : Rast) : Option ℚ := (sampleList r).max?

/-- Shallow embedding of the per-date body of `main.process_aoi` (lines
71-224): existing outputs only regenerate metadata; a load failure is
caught and the date fails; an all-zero mosaic (`rgb_array.max() == 0`) is
skipped with a warning before resampling; otherwise the date runs
resample, GeoTIFF export, display normalization, JPEG export and metadata.
The returned stage list records which stages ran for the date. -/
def processDate (t : DateTask) : DateOutcome × List Stage :=
  if t.filesExist then (.alreadyExists, [.metadata])
  else
    match t.loadResult with
    | .error e => (.failed e, [.load])
    | .ok r =>
      match rastMax r with
      | none => (.failed "zero-size array reduction", [.load])
      | some m =>
        if m = 0 then (.skippedAllZero, [.load])
        else (.processed, [.load, .resample, .exportTif, .normalize, .exportJpg, .metadata])

/-- Shallow embedding of the date loop of `main.process_aoi`: every date is
processed in turn, each body catching its own exceptions, so each date
yields an outcome and no date aborts its successors. -/
def process_aoi (tasks : List DateTask) : List (DateOutcome × List Stage) :=
  tasks.map processDate

/-- A zero-area AOI: the single point at the centre of cell `(0, 0)`. -/
def ptOrigin : Geom := ⟨∅, {(0, 0)}⟩

/-- The unit cell at the origin. -/
def cellOrigin : Geom := ⟨{(0, 0)}, ∅⟩

/-- A sample STAC item whose footprint is `cellOrigin`. -/
def sampleItem : Item := ⟨"2024-01-01T10:20:30Z", cellOrigin, 5⟩

/-- A 1000 by 1000 profile with 10 m pixels (north-up, origin 0). -/
def profile10 : Profile := ⟨⟨10, 0, 0, 0, -10, 0⟩, 1000, 1000, 32632⟩

/-- A 1000 by 1000 all-zero raster. -/
def zeroRast : Rast := ⟨1000, 1000, fun _ _ _ => 0⟩

/-- A date task whose load produced a 1 by 1 all-zero raster. -/
def zTask : DateTask := ⟨"2024-01-01", false, .ok ⟨1, 1, fun _ _ _ => 0⟩⟩

theorem check_coverage_eq (A F : Geom) (h : area A ≠ 0) :
    check_coverage A F = some (covPct A F, fully_covers A F) := by
  unfold check_coverage fully_covers
  cases hi : gIntersects F A with
  | false =>
    have hn : ¬((999 : ℚ) / 10 ≤ (0 : ℚ)) := by norm_num
    simp [covPct, hi, hn]
  | true => simp [covPct, hi, h]

/-- C1 (amended): when the candidate does not intersect the AOI,
`check_coverage` returns `(0.0, False)`; when it intersects and the AOI
has nonzero area, it returns the percentage
`area(intersection) / area(aoi) * 100` with a flag that is true exactly
when the percentage is at least 99.9.  (The original claim's universal
intersecting case is false: a zero-area AOI makes the division raise, see
the counterexample.) -/
theorem claim1_check_coverage_spec (A F : Geom) :
    (gIntersects F A = false → check_coverage A F = some (0, false)) ∧
    (gIntersects F A = true → area A ≠ 0 →
      ∃ p b, check_coverage A F = some (p, b) ∧
        p = area (gInter F A) / area A * 100 ∧ (b = true ↔ (999 : ℚ) / 10 ≤ p)) := by
  constructor
  · intro hi
    unfold check_coverage
    simp [hi]
  · intro hi h
    refine ⟨covPct A F, fully_covers A F, check_coverage_eq A F h, ?_, ?_⟩
    · unfold covPct
      simp [hi]
    · unfold fully_covers
      simp

/-- C1 counterexample: the AOI that is the single point at the origin is
intersected by the unit-cell candidate, yet `check_coverage` raises
(returns `none`) instead of returning a percentage pair. -/
theorem claim1_counterexample :
    gIntersects cellOrigin ptOrigin = true ∧ check_coverage ptOrigin cellOrigin = none := by
  have h1 : gIntersects cellOrigin ptOrigin = true := by decide
  have h2 : area ptOrigin = 0 := by simp [area, ptOrigin]
  refine ⟨h1, ?_⟩
  unfold check_coverage
  simp [h1, h2]

/-- C1 witness: on the unit-cell AOI covered by itself the theorem yields
the pair `(100, true)`. -/
theorem claim1_witness :
    ∃ p b, check_coverage cellOrigin cellOrigin = some (p, b) ∧ p = 100 ∧ b = true := by
  obtain ⟨p, b, hcc, hp, hb⟩ :=
    (claim1_check_coverage_spec cellOrigin cellOrigin).2 (by decide)
      (by simp [area, cellOrigin])
  have hp2 : p = 100 := by
    rw [hp]
    simp [gInter, cellOrigin, area]
  exact ⟨p, b, hcc, hp2, hb.mpr (by rw [hp2]; norm_num)⟩

/-- C9: for a zero-area AOI, `check_coverage` raises (returns `none`) on
every intersecting candidate — the implicit precondition `area(aoi) > 0` —
while a non-intersecting candidate still yields `(0.0, False)`. -/
theorem claim9_zero_area_partiality (A F : Geom) (h0 : area A = 0) :
    (gIntersects F A = true → check_coverage A F = none) ∧
    (gIntersects F A = false → check_coverage A F = some (0, false)) := by
  constructor
  · intro hi
    unfold check_coverage
    simp [hi, h0]
  · intro hi
    unfold check_coverage
    simp [hi]

/-- C9 witness: at the zero-area AOI made of the point `(5, 7)`, the
intersecting cell candidate raises and a far-away candidate returns
`(0.0, False)`. -/
theorem claim9_witness :
    check_coverage ⟨∅, {(5, 7)}⟩ ⟨{(5, 7)}, ∅⟩ = none ∧
    check_coverage ⟨∅, {(5, 7)}⟩ ⟨{(9, 9)}, ∅⟩ = some (0, false) := by
  have h0 : area ⟨∅, {(5, 7)}⟩ = 0 := by simp [area]
  exact ⟨(claim9_zero_area_partiality _ _ h0).1 (by decide),
    (claim9_zero_area_partiality _ _ h0).2 (by decide)⟩

/-- C3 counterexample: raw value 1000 with the default gain 2.5 maps to
63, not to `round(0.25 * 255) = 64` — `astype(np.uint8)` truncates. -/
theorem claim3_counterexample :
    (normalize_for_display ⟨1, 1, fun _ _ _ => 1000⟩ defaultGain).data 0 0 0 = 63 ∧
    (normalize_for_display ⟨1, 1, fun _ _ _ => 1000⟩ defaultGain).data 0 0 0 ≠ 64 := by
  have h : (normalize_for_display ⟨1, 1, fun _ _ _ => 1000⟩ defaultGain).data 0 0 0 = 63 := by
    show normalize_band defaultGain 1000 = 63
    unfold normalize_band
    have hq : rclip ((1000 : ℚ) / 10000 * defaultGain) 0 1 * 255 = 255 / 4 := by
      unfold rclip defaultGain
      rw [max_eq_left (by norm_num), min_eq_left (by norm_num)]
      norm_num
    rw [hq]
    unfold toUint8 pyInt
    rw [if_pos (by norm_num)]
    norm_num
    try rfl
  exact ⟨h, by rw [h]; norm_num⟩

/-- C3 (amended): `normalize_for_display` keeps the input dimensions and
maps every sample `raw` to `trunc(clip(raw / 10000 * gain, 0, 1) * 255)`
as an 8-bit unsigned integer — truncation, not rounding — so with the
default gain 2.5: 10000 maps to 255, 0 to 0, 4000 to 255 and 1000 to 63. -/
theorem claim3_normalize_spec :
    (∀ (rgb : Rast) (gain : ℚ) (r c k : ℕ),
        (normalize_for_display rgb gain).data r c k =
          toUint8 (rclip (rgb.data r c k / 10000 * gain) 0 1 * 255) ∧
        (normalize_for_display rgb gain).H = rgb.H ∧
        (normalize_for_display rgb gain).W = rgb.W) ∧
    normalize_band defaultGain 10000 = 255 ∧
    normalize_band defaultGain 0 = 0 ∧
    normalize_band defaultGain 4000 = 255 ∧
    normalize_band defaultGain 1000 = 63 := by
  refine ⟨fun rgb gain r c k => ⟨rfl, rfl, rfl⟩, ?_, ?_, ?_, ?_⟩
  · unfold normalize_band
    have hq : rclip ((10000 : ℚ) / 10000 * defaultGain) 0 1 * 255 = 255 := by
      unfold rclip defaultGain
      rw [max_eq_left (by norm_num), min_eq_right (by norm_num)]
      norm_num
    rw [hq]
    unfold toUint8 pyInt
    rw [if_pos (by norm_num)]
    norm_num
    try rfl
  · unfold normalize_band
    have hq : rclip ((0 : ℚ) / 10000 * defaultGain) 0 1 * 255 = 0 := by
      unfold rclip defaultGain
      rw [max_eq_left (by norm_num), min_eq_left (by norm_num)]
      norm_num
    rw [hq]
    unfold toUint8 pyInt
    rw [if_pos (by norm_num)]
    norm_num
    try rfl
  · unfold normalize_band
    have hq : rclip ((4000 : ℚ) / 10000 * defaultGain) 0 1 * 255 = 255 := by
      unfold rclip defaultGain
      rw [max_eq_left (by norm_num), min_eq_right (by norm_num)]
      norm_num
    rw [hq]
    unfold toUint8 pyInt
    rw [if_pos (by norm_num)]
    norm_num
    try rfl
  · unfold normalize_band
    have hq : rclip ((1000 : ℚ) / 10000 * defaultGain) 0 1 * 255 = 255 / 4 := by
      unfold rclip defaultGain
      rw [max_eq_left (by norm_num), min_eq_left (by norm_num)]
      norm_num
    rw [hq]
    unfold toUint8 pyInt
    rw [if_pos (by norm_num)]
    norm_num
    try rfl

theorem pyInt_of_nonneg {q : ℚ} (h : 0 ≤ q) : pyInt q = ⌊q⌋ := by
  unfold pyInt
  rw [if_pos h]

theorem resample_else (rgb : Rast) (profile : Profile) (target : ℚ)
    (h1 : ¬(|profile.transform.a - target| < 1 / 100))
    (hs : 0 ≤ profile.transform.a / target)
    (hh1 : 1 ≤ ⌊(profile.height : ℚ) * (profile.transform.a / target)⌋)
    (hw1 : 1 ≤ ⌊(profile.width : ℚ) * (profile.transform.a / target)⌋) :
    ∃ out p2, resample_to_resolution rgb profile target = some (out, p2) ∧
      p2.height = (⌊(profile.height : ℚ) * (profile.transform.a / target)⌋).toNat ∧
      p2.width = (⌊(profile.width : ℚ) * (profile.transform.a / target)⌋).toNat ∧
      out.H = p2.height ∧ out.W = p2.width ∧
      p2.transform = ⟨target, profile.transform.b, profile.transform.c, profile.transform.d,
        -target, profile.transform.f⟩ ∧
      p2.crs = profile.crs := by
  have hh : 0 ≤ (profile.height : ℚ) * (profile.transform.a / target) :=
    mul_nonneg (Nat.cast_nonneg _) hs
  have hw : 0 ≤ (profile.width : ℚ) * (profile.transform.a / target) :=
    mul_nonneg (Nat.cast_nonneg _) hs
  have hnh := pyInt_of_nonneg hh
  have hnw := pyInt_of_nonneg hw
  have hguard : ¬(pyInt ((profile.height : ℚ) * (profile.transform.a / target)) < 1 ∨
      pyInt ((profile.width : ℚ) * (profile.transform.a / target)) < 1) := by
    push_neg
    constructor
    · rw [hnh]
      exact hh1
    · rw [hnw]
      exact hw1
  refine ⟨⟨(pyInt ((profile.height : ℚ) * (profile.transform.a / target))).toNat,
      (pyInt ((profile.width : ℚ) * (profile.transform.a / target))).toNat,
      fun i j k => bilinearSample rgb profile.transform
        ⟨target, profile.transform.b, profile.transform.c, profile.transform.d,
          -target, profile.transform.f⟩ i j k⟩,
    { profile with
        height := (pyInt ((profile.height : ℚ) * (profile.transform.a / target))).toNat,
        width := (pyInt ((profile.width : ℚ) * (profile.transform.a / target))).toNat,
        transform := ⟨target, profile.transform.b, profile.transform.c,
          profile.transform.d, -target, profile.transform.f⟩ },
    ?_, ?_, ?_, rfl, rfl, rfl, rfl⟩
  · simp only [resample_to_resolution]
    rw [if_neg h1, if_neg hguard]
  · show (pyInt ((profile.height : ℚ) * (profile.transform.a / target))).toNat =
      (⌊(profile.height : ℚ) * (profile.transform.a / target)⌋).toNat
    rw [hnh]
  · show (pyInt ((profile.width : ℚ) * (profile.transform.a / target))).toNat =
      (⌊(profile.width : ℚ) * (profile.transform.a / target)⌋).toNat
    rw [hnw]

/-- C5: when the current pixel size (read from `transform[0]`) differs
from the target by less than 0.01, `resample_to_resolution` returns the
raster and the profile unchanged. -/
theorem claim5_resample_identity (rgb : Rast) (profile : Profile) (target : ℚ)
    (h : |profile.transform.a - target| < 1 / 100) :
    resample_to_resolution rgb profile target = some (rgb, profile) := by
  unfold resample_to_resolution
  rw [if_pos h]

/-- C5 witness: resampling the concrete 1000 by 1000 raster at 10 m to
10 m is the identity. -/
theorem claim5_witness : resample_to_resolution zeroRast profile10 10 = some (zeroRast, profile10) :=
  claim5_resample_identity zeroRast profile10 10 (by norm_num [profile10])

/-- C6: when resampling is performed (nonnegative current pixel size,
positive target) and neither truncated output dimension is degenerate
(each at least 1, so the reprojection into the new grid succeeds), the
new dimensions are `floor(old_dimension * current / target)`; in
particular a 1000 by 1000 raster at 10 m resampled to 20 m yields 500 by
500, and resampling that result back to 10 m yields 1000 by 1000. -/
theorem claim6_resample_dims :
    (∀ (rgb : Rast) (profile : Profile) (target : ℚ),
      ¬(|profile.transform.a - target| < 1 / 100) →
      0 ≤ profile.transform.a → 0 < target →
      1 ≤ ⌊(profile.height : ℚ) * (profile.transform.a / target)⌋ →
      1 ≤ ⌊(profile.width : ℚ) * (profile.transform.a / target)⌋ →
      ∃ out p2, resample_to_resolution rgb profile target = some (out, p2) ∧
        p2.height = (⌊(profile.height : ℚ) * (profile.transform.a / target)⌋).toNat ∧
        p2.width = (⌊(profile.width : ℚ) * (profile.transform.a / target)⌋).toNat ∧
        out.H = p2.height ∧ out.W = p2.width) ∧
    (∃ out1 p1, resample_to_resolution zeroRast profile10 20 = some (out1, p1) ∧
      p1.height = 500 ∧ p1.width = 500 ∧
      ∃ out2 p2, resample_to_resolution out1 p1 10 = some (out2, p2) ∧
        p2.height = 1000 ∧ p2.width = 1000) := by
  have general : ∀ (rgb : Rast) (profile : Profile) (target : ℚ),
      ¬(|profile.transform.a - target| < 1 / 100) →
      0 ≤ profile.transform.a → 0 < target →
      1 ≤ ⌊(profile.height : ℚ) * (profile.transform.a / target)⌋ →
      1 ≤ ⌊(profile.width : ℚ) * (profile.transform.a / target)⌋ →
      ∃ out p2, resample_to_resolution rgb profile target = some (out, p2) ∧
        p2.height = (⌊(profile.height : ℚ) * (profile.transform.a / target)⌋).toNat ∧
        p2.width = (⌊(profile.width : ℚ) * (profile.transform.a / target)⌋).toNat ∧
        out.H = p2.height ∧ out.W = p2.width ∧
        p2.transform = ⟨target, profile.transform.b, profile.transform.c,
          profile.transform.d, -target, profile.transform.f⟩ ∧
        p2.crs = profile.crs := by
    intro rgb profile target h1 h2 h3 hd1 hd2
    exact resample_else rgb profile target h1 (div_nonneg h2 (le_of_lt h3)) hd1 hd2
  constructor
  · intro rgb profile target h1 h2 h3 hd1 hd2
    obtain ⟨out, p2, e, eh, ew, oh, ow, _, _⟩ := general rgb profile target h1 h2 h3 hd1 hd2
    exact ⟨out, p2, e, eh, ew, oh, ow⟩
  · obtain ⟨out1, p1, e1, eh1, ew1, _, _, et1, _⟩ :=
      general zeroRast profile10 20 (by norm_num [profile10]) (by norm_num [profile10])
        (by norm_num) (by norm_num [profile10]) (by norm_num [profile10])
    have hh1 : p1.height = 500 := by
      rw [eh1]
      norm_num [profile10]
      rfl
    have hw1 : p1.width = 500 := by
      rw [ew1]
      norm_num [profile10]
      rfl
    have ha1 : p1.transform.a = 20 := by
      rw [et1]
    obtain ⟨out2, p2, e2, eh2, ew2, _, _, _, _⟩ :=
      general out1 p1 10 (by rw [ha1]; norm_num) (by rw [ha1]; norm_num) (by norm_num)
        (by rw [hh1, ha1]; norm_num) (by rw [hw1, ha1]; norm_num)
    refine ⟨out1, p1, e1, hh1, hw1, out2, p2, e2, ?_, ?_⟩
    · rw [eh2, hh1, ha1]
      norm_num
      rfl
    · rw [ew2, hw1, ha1]
      norm_num
      rfl

/-- C6 witness: the dimension formula instantiated at a 1000 by 1000
raster resampled from 10 m to 40 m pixels gives height 250. -/
theorem claim6_witness :
    ∃ out p2, resample_to_resolution zeroRast profile10 40 = some (out, p2) ∧ p2.height = 250 := by
  obtain ⟨out, p2, e, eh, _⟩ := claim6_resample_dims.1 zeroRast profile10 40
    (by norm_num [profile10]) (by norm_num [profile10]) (by norm_num)
    (by norm_num [profile10]) (by norm_num [profile10])
  refine ⟨out, p2, e, ?_⟩
  rw [eh]
  norm_num [profile10]
  rfl

/-- C10 (amended): the resampler places no guard on degenerate output
dimensions, but it does not return an empty zero-pixel array either:
whenever `old_dimension * (current / target) < 1` for the height or the
width (with nonnegative scale), the truncated dimension is 0 and the
reprojection into the zero-sized destination raises (GDAL refuses to
create the in-memory dataset), so `resample_to_resolution` fails. -/
theorem claim10_degenerate_raises (rgb : Rast) (profile : Profile) (target : ℚ)
    (h1 : ¬(|profile.transform.a - target| < 1 / 100))
    (hs : 0 ≤ profile.transform.a / target)
    (hlt : (profile.height : ℚ) * (profile.transform.a / target) < 1 ∨
      (profile.width : ℚ) * (profile.transform.a / target) < 1) :
    resample_to_resolution rgb profile target = none := by
  have key : pyInt ((profile.height : ℚ) * (profile.transform.a / target)) < 1 ∨
      pyInt ((profile.width : ℚ) * (profile.transform.a / target)) < 1 := by
    rcases hlt with h | h
    · left
      rw [pyInt_of_nonneg (mul_nonneg (Nat.cast_nonneg _) hs),
        Int.floor_eq_zero_iff.mpr (Set.mem_Ico.mpr ⟨mul_nonneg (Nat.cast_nonneg _) hs, h⟩)]
      norm_num
    · right
      rw [pyInt_of_nonneg (mul_nonneg (Nat.cast_nonneg _) hs),
        Int.floor_eq_zero_iff.mpr (Set.mem_Ico.mpr ⟨mul_nonneg (Nat.cast_nonneg _) hs, h⟩)]
      norm_num
  simp only [resample_to_resolution]
  rw [if_neg h1, if_pos key]

/-- C10 counterexample: a 1 by 1 raster at 10 m resampled to 100 m has a
truncated height of 0 and the function raises (returns `none`) instead of
returning an empty zero-pixel array with a profile. -/
theorem claim10_counterexample :
    resample_to_resolution ⟨1, 1, fun _ _ _ => 0⟩ ⟨⟨10, 0, 0, 0, -10, 0⟩, 1, 1, 25832⟩ 100 =
      none := by
  have h1 : ¬(|((⟨⟨10, 0, 0, 0, -10, 0⟩, 1, 1, 25832⟩ : Profile).transform.a) - 100| <
      1 / 100) := by
    norm_num
  have hp : pyInt (((⟨⟨10, 0, 0, 0, -10, 0⟩, 1, 1, 25832⟩ : Profile).height : ℚ) *
      ((⟨⟨10, 0, 0, 0, -10, 0⟩, 1, 1, 25832⟩ : Profile).transform.a / 100)) < 1 := by
    rw [pyInt_of_nonneg (by norm_num)]
    norm_num
  simp only [resample_to_resolution]
  rw [if_neg h1, if_pos (Or.inl hp)]

/-- C10 witness: a 2000 by 1 raster at 10 m resampled to 20 m has a
degenerate width, so the resampler raises. -/
theorem claim10_witness :
    resample_to_resolution ⟨2000, 1, fun _ _ _ => 0⟩ ⟨⟨10, 0, 0, 0, -10, 0⟩, 2000, 1, 32632⟩ 20 =
      none :=
  claim10_degenerate_raises _ _ _ (by norm_num) (by norm_num) (Or.inr (by norm_num))

theorem prepareTiles_crs (target : ℕ) (srcs : List SrcTile) :
    ∀ p ∈ prepareTiles target srcs, p.crs = target ∧
      (p.srcCrs ≠ target → p.method = some ResamplingMethod.bilinear) := by
  intro p hp
  unfold prepareTiles at hp
  by_cases hany : srcs.any (fun s => s.crs ≠ target)
  · rw [if_pos hany] at hp
    obtain ⟨s, hs, rfl⟩ := List.mem_map.mp hp
    by_cases hcrs : s.crs ≠ target
    · rw [if_pos hcrs]
      exact ⟨rfl, fun _ => rfl⟩
    · rw [if_neg hcrs]
      have heq : s.crs = target := not_not.mp hcrs
      exact ⟨heq, fun hc => absurd heq hc⟩
  · rw [if_neg hany] at hp
    obtain ⟨s, hs, rfl⟩ := List.mem_map.mp hp
    simp only [List.any_eq_true, decide_eq_true_eq, not_exists] at hany
    have heq : s.crs = target := by
      by_contra hne
      exact hany s ⟨hs, hne⟩
    exact ⟨heq, fun hc => absurd heq hc⟩

theorem prepareTiles_srcs (target : ℕ) (srcs : List SrcTile) :
    (prepareTiles target srcs).map PrepDS.srcCrs = srcs.map SrcTile.crs := by
  unfold prepareTiles
  by_cases hany : srcs.any (fun s => s.crs ≠ target)
  · rw [if_pos hany, List.map_map]
    apply List.map_congr_left
    intro s _
    by_cases hcrs : s.crs ≠ target
    · rw [Function.comp_apply, if_pos hcrs]
      rfl
    · rw [Function.comp_apply, if_neg hcrs]
      rfl
  · rw [if_neg hany, List.map_map]
    rfl

/-- C4: for every non-empty tile list, the loader takes the first opened
tile's reference frame as the target frame for each band; every dataset
entering the mosaic is in that frame, any tile that was opened in a
different frame was reprojected into it with bilinear resampling, and the
returned profile's reference frame is the first tile's. -/
theorem claim4_load_crs (t0 : SrcTile) (rest : List SrcTile) :
    ∃ res, load_and_crop_bands (t0 :: rest) = some res ∧
      res.profileCrs = t0.crs ∧
      res.bands.length = 3 ∧
      ∀ b ∈ res.bands, b.crs = t0.crs ∧
        b.used.map PrepDS.srcCrs = (t0 :: rest).map SrcTile.crs ∧
        ∀ p ∈ b.used, p.crs = t0.crs ∧
          (p.srcCrs ≠ t0.crs → p.method = some ResamplingMethod.bilinear) := by
  cases rest with
  | nil =>
    refine ⟨⟨[⟨t0.crs, [asIs t0]⟩, ⟨t0.crs, [asIs t0]⟩, ⟨t0.crs, [asIs t0]⟩], t0.crs⟩,
      rfl, rfl, rfl, ?_⟩
    intro b hb
    have hbeq : b = ⟨t0.crs, [asIs t0]⟩ := by
      simp only [List.mem_cons, List.not_mem_nil, or_false] at hb
      rcases hb with h | h | h <;> exact h
    subst hbeq
    refine ⟨rfl, rfl, ?_⟩
    intro p hp
    have hpeq : p = asIs t0 := by
      simp only [List.mem_cons, List.not_mem_nil, or_false] at hp
      exact hp
    subst hpeq
    exact ⟨rfl, fun hc => absurd rfl hc⟩
  | cons r rs =>
    refine ⟨⟨[⟨t0.crs, prepareTiles t0.crs (t0 :: r :: rs)⟩,
        ⟨t0.crs, prepareTiles t0.crs (t0 :: r :: rs)⟩,
        ⟨t0.crs, prepareTiles t0.crs (t0 :: r :: rs)⟩], t0.crs⟩, rfl, rfl, rfl, ?_⟩
    intro b hb
    have hbeq : b = ⟨t0.crs, prepareTiles t0.crs (t0 :: r :: rs)⟩ := by
      simp only [List.mem_cons, List.not_mem_nil, or_false] at hb
      rcases hb with h | h | h <;> exact h
    subst hbeq
    exact ⟨rfl, prepareTiles_srcs t0.crs (t0 :: r :: rs),
      prepareTiles_crs t0.crs (t0 :: r :: rs)⟩

/-- C4 witness: two tiles in frames 32632 and 32633 yield an output in
frame 32632 (the first tile's), the second tile entering reprojected. -/
theorem claim4_witness :
    ∃ res, load_and_crop_bands [⟨32632⟩, ⟨32633⟩] = some res ∧ res.profileCrs = 32632 := by
  obtain ⟨res, he, hcrs, _⟩ := claim4_load_crs ⟨32632⟩ [⟨32633⟩]
  exact ⟨res, he, hcrs⟩

theorem retryLoop_all_fail (band : String) (maxR : ℕ) (att : ℕ → Option String)
    (e : ℕ → String) :
    ∀ (l : List ℕ) (hne : l ≠ []), (∀ k ∈ l, att k = some (e k)) →
      retryLoop band maxR att l =
        ⟨l.length, List.replicate (l.length - 1) 2,
          .error (openFailMsg band maxR (e (l.getLast hne)))⟩ := by
  intro l
  induction l with
  | nil => intro hne; exact absurd rfl hne
  | cons a t ih =>
    intro hne hf
    cases t with
    | nil =>
      have ha := hf a (List.mem_cons_self a [])
      rw [retryLoop.eq_def]
      dsimp only
      rw [ha]
      simp
    | cons b t2 =>
      have ha := hf a (List.mem_cons_self a (b :: t2))
      have ht : ∀ k ∈ b :: t2, att k = some (e k) := fun k hk =>
        hf k (List.mem_cons_of_mem a hk)
      have hne2 : (b :: t2) ≠ [] := List.cons_ne_nil b t2
      have hrec := ih hne2 ht
      rw [retryLoop.eq_def]
      dsimp only
      rw [ha]
      dsimp only
      rw [hrec]
      simp [RetryTrace.mk.injEq, List.getLast_cons hne2, List.replicate_succ]

/-- C7 (amended): for a tile whose band asset open fails on every try, the
loop makes exactly `max_retries` attempts (default 3) with a fixed
2-second delay between consecutive attempts, then raises an error naming
the band and the attempt count together with the underlying error text —
but not the tile. -/
theorem claim7_retry_exhaustion (band : String) (maxR : ℕ) (att : ℕ → Option String)
    (e : ℕ → String) (hpos : 1 ≤ maxR) (hf : ∀ k, k < maxR → att k = some (e k)) :
    open_with_retry band maxR att =
      ⟨maxR, List.replicate (maxR - 1) 2,
        .error (openFailMsg band maxR (e (maxR - 1)))⟩ ∧
    mentions (openFailMsg band maxR (e (maxR - 1))) band = true := by
  obtain ⟨m, rfl⟩ : ∃ m, maxR = m + 1 := ⟨maxR - 1, (Nat.succ_pred_eq_of_pos hpos).symm⟩
  constructor
  · unfold open_with_retry
    have hne : List.range (m + 1) ≠ [] := by
      refine List.length_pos.mp ?_
      simp
    have hfl : ∀ k ∈ List.range (m + 1), att k = some (e k) := fun k hk =>
      hf k (List.mem_range.mp hk)
    rw [retryLoop_all_fail band (m + 1) att e (List.range (m + 1)) hne hfl]
    have hlast : (List.range (m + 1)).getLast hne = m := by
      have h2 : (List.range (m + 1)).getLast? = some m := by
        rw [List.range_succ, List.getLast?_concat]
      rw [List.getLast?_eq_getLast (List.range (m + 1)) hne] at h2
      exact Option.some_injective _ h2
    simp [List.length_range, hlast]
  · unfold mentions openFailMsg
    apply decide_eq_true
    refine ⟨"Failed to open ".toList,
      (" band after " ++ toString (m + 1) ++ " attempts: " ++ e (m + 1 - 1)).toList, ?_⟩
    simp [String.toList, String.data_append, List.append_assoc]

/-- C7 counterexample: with band "red", three attempts all failing with
"HTTP 500", the raised message names the band but no message part names
the tile (here "S2A_32UNA_20240101"): the tile identifier never flows into
the message. -/
theorem claim7_counterexample :
    (open_with_retry "red" 3 (fun _ => some "HTTP 500")).outcome =
      .error (openFailMsg "red" 3 "HTTP 500") ∧
    openFailMsg "red" 3 "HTTP 500" = "Failed to open red band after 3 attempts: HTTP 500" ∧
    mentions (openFailMsg "red" 3 "HTTP 500") "red" = true ∧
    mentions (openFailMsg "red" 3 "HTTP 500") "S2A_32UNA_20240101" = false := by
  refine ⟨rfl, by decide, by decide, by decide⟩

/-- C7 witness: the exhaustion theorem instantiated at band "green" with
three attempts failing with "timeout". -/
theorem claim7_witness :
    open_with_retry "green" 3 (fun _ => some "timeout") =
      ⟨3, [2, 2], .error (openFailMsg "green" 3 "timeout")⟩ := by
  have h := claim7_retry_exhaustion "green" 3 (fun _ => some "timeout") (fun _ => "timeout")
    (by norm_num) (fun k _ => rfl)
  rw [h.1]
  rfl

theorem foldl_max_zero (xs : List ℚ) (hx : ∀ x ∈ xs, x = 0) :
    List.foldl max (0 : ℚ) xs = 0 := by
  induction xs with
  | nil => rfl
  | cons y ys ih =>
    have hy := hx y (List.mem_cons_self y ys)
    simp only [List.foldl_cons, hy, max_self]
    exact ih fun x hx2 => hx x (List.mem_cons_of_mem y hx2)

theorem max?_all_zero (l : List ℚ) (hne : l ≠ []) (hz : ∀ x ∈ l, x = 0) :
    l.max? = some 0 := by
  cases l with
  | nil => exact absurd rfl hne
  | cons y ys =>
    have hy := hz y (List.mem_cons_self y ys)
    show some (ys.foldl max y) = some 0
    rw [hy]
    exact congrArg some (foldl_max_zero ys fun x hx => hz x (List.mem_cons_of_mem y hx))

theorem sampleList_all_zero (r : Rast)
    (hz : ∀ a < r.H, ∀ b < r.W, ∀ k < 3, r.data a b k = 0) :
    ∀ x ∈ sampleList r, x = 0 := by
  intro x hx
  unfold sampleList at hx
  obtain ⟨i, hi, hx2⟩ := List.mem_flatMap.mp hx
  obtain ⟨j, hj, hx3⟩ := List.mem_flatMap.mp hx2
  have hiH := List.mem_range.mp hi
  have hjW := List.mem_range.mp hj
  simp only [List.mem_cons, List.not_mem_nil, or_false] at hx3
  rcases hx3 with h | h | h <;> rw [h]
  · exact hz i hiH j hjW 0 (by norm_num)
  · exact hz i hiH j hjW 1 (by norm_num)
  · exact hz i hiH j hjW 2 (by norm_num)

theorem rastMax_all_zero (r : Rast) (hH : 0 < r.H) (hW : 0 < r.W)
    (hz : ∀ a < r.H, ∀ b < r.W, ∀ k < 3, r.data a b k = 0) :
    rastMax r = some 0 := by
  have hmem : r.data 0 0 0 ∈ sampleList r := by
    unfold sampleList
    refine List.mem_flatMap.mpr ⟨0, List.mem_range.mpr hH, ?_⟩
    refine List.mem_flatMap.mpr ⟨0, List.mem_range.mpr hW, ?_⟩
    simp
  exact max?_all_zero _ (List.ne_nil_of_mem hmem) (sampleList_all_zero r hz)

/-- C8: a date whose mosaicked-and-cropped result is entirely zero-valued
is a skip signal, not an exception: that date's outcome is
`skippedAllZero`, only the load stage ran (no resampling, no export), and
every date of the loop still yields an outcome (processing continues). -/
theorem claim8_allzero_skip (tasks : List DateTask) (i : ℕ) (hi : i < tasks.length)
    (r : Rast)
    (hfe : (tasks.get ⟨i, hi⟩).filesExist = false)
    (hload : (tasks.get ⟨i, hi⟩).loadResult = .ok r)
    (hH : 0 < r.H) (hW : 0 < r.W)
    (hz : ∀ a < r.H, ∀ b < r.W, ∀ k < 3, r.data a b k = 0) :
    (process_aoi tasks).length = tasks.length ∧
    ∃ hi2 : i < (process_aoi tasks).length,
      (process_aoi tasks).get ⟨i, hi2⟩ = (DateOutcome.skippedAllZero, [Stage.load]) ∧
      Stage.resample ∉ ((process_aoi tasks).get ⟨i, hi2⟩).2 ∧
      Stage.exportTif ∉ ((process_aoi tasks).get ⟨i, hi2⟩).2 ∧
      Stage.exportJpg ∉ ((process_aoi tasks).get ⟨i, hi2⟩).2 := by
  have hlen : (process_aoi tasks).length = tasks.length := List.length_map _ _
  have hi2 : i < (process_aoi tasks).length := by
    rw [hlen]
    exact hi
  have hget : (process_aoi tasks).get ⟨i, hi2⟩ = processDate (tasks.get ⟨i, hi⟩) := by
    simp [process_aoi, List.get_eq_getElem, List.getElem_map]
  have hm : rastMax r = some 0 := rastMax_all_zero r hH hW hz
  have hpd : processDate (tasks.get ⟨i, hi⟩) = (DateOutcome.skippedAllZero, [Stage.load]) := by
    unfold processDate
    rw [hfe, hload]
    dsimp only
    rw [hm]
    dsimp only
    simp
  have hfinal := hget.trans hpd
  refine ⟨hlen, hi2, hfinal, ?_, ?_, ?_⟩ <;> rw [hfinal] <;> decide

/-- C8 witness: the loop over the single concrete all-zero date task skips
that date with only the load stage run. -/
theorem claim8_witness :
    (process_aoi [zTask]).length = 1 ∧
    ∃ hi2 : 0 < (process_aoi [zTask]).length,
      (process_aoi [zTask]).get ⟨0, hi2⟩ = (DateOutcome.skippedAllZero, [Stage.load]) := by
  have h := claim8_allzero_skip [zTask] 0 (by norm_num) ⟨1, 1, fun _ _ _ => 0⟩ rfl rfl
    (by norm_num) (by norm_num) (fun a _ b _ k _ => rfl)
  obtain ⟨hlen, hi2, hg, _⟩ := h
  exact ⟨hlen, hi2, hg⟩

theorem selectDates_eq (aoi : Geom) (h : area aoi ≠ 0) :
    ∀ l : List (String × List Item),
      selectDates aoi l =
        some (l.filter fun g => fully_covers aoi (unary_union (g.2.map Item.geom))) := by
  intro l
  induction l with
  | nil => rfl
  | cons g rest ih =>
    rw [selectDates.eq_def]
    dsimp only
    rw [check_coverage_eq aoi _ h]
    dsimp only
    rw [ih]
    dsimp only
    by_cases hc : fully_covers aoi (unary_union (g.2.map Item.geom)) = true
    · simp [List.filter_cons, hc]
    · simp only [Bool.not_eq_true] at hc
      simp [List.filter_cons, hc]

theorem keyFold_mem (l : List Item) :
    ∀ (acc : List String) (d : String),
      d ∈ l.foldl (fun acc it => if dateOf it ∈ acc then acc else acc ++ [dateOf it]) acc ↔
        d ∈ acc ∨ ∃ it ∈ l, dateOf it = d := by
  induction l with
  | nil =>
    intro acc d
    simp
  | cons a t ih =>
    intro acc d
    rw [List.foldl_cons, ih]
    by_cases hmem : dateOf a ∈ acc
    · rw [if_pos hmem]
      constructor
      · rintro (h | ⟨it, hit, rfl⟩)
        · exact Or.inl h
        · exact Or.inr ⟨it, List.mem_cons_of_mem a hit, rfl⟩
      · rintro (h | ⟨it, hit, rfl⟩)
        · exact Or.inl h
        · rcases List.mem_cons.mp hit with rfl | hit2
          · exact Or.inl hmem
          · exact Or.inr ⟨it, hit2, rfl⟩
    · rw [if_neg hmem]
      constructor
      · rintro (h | ⟨it, hit, rfl⟩)
        · rcases List.mem_append.mp h with h2 | h2
          · exact Or.inl h2
          · rw [List.mem_singleton] at h2
            exact Or.inr ⟨a, List.mem_cons_self a t, h2.symm⟩
        · exact Or.inr ⟨it, List.mem_cons_of_mem a hit, rfl⟩
      · rintro (h | ⟨it, hit, rfl⟩)
        · exact Or.inl (List.mem_append.mpr (Or.inl h))
        · rcases List.mem_cons.mp hit with rfl | hit2
          · exact Or.inl (List.mem_append.mpr (Or.inr (List.mem_singleton.mpr rfl)))
          · exact Or.inr ⟨it, hit2, rfl⟩

theorem keyList_mem (items : List Item) (d : String) :
    d ∈ keyList items ↔ ∃ it ∈ items, dateOf it = d := by
  unfold keyList
  rw [keyFold_mem]
  simp

theorem keyFold_nodup (l : List Item) :
    ∀ acc : List String, acc.Nodup →
      (l.foldl (fun acc it => if dateOf it ∈ acc then acc else acc ++ [dateOf it]) acc).Nodup := by
  induction l with
  | nil =>
    intro acc h
    exact h
  | cons a t ih =>
    intro acc h
    rw [List.foldl_cons]
    by_cases hmem : dateOf a ∈ acc
    · rw [if_pos hmem]
      exact ih acc h
    · rw [if_neg hmem]
      refine ih _ ?_
      simp [List.nodup_append, h, hmem]

theorem keyList_nodup (items : List Item) : (keyList items).Nodup :=
  keyFold_nodup items [] List.nodup_nil

theorem mem_groupsByDate (items : List Item) (d : String) (its : List Item) :
    (d, its) ∈ groupsByDate items ↔ d ∈ keyList items ∧ its = groupFor items d := by
  unfold groupsByDate
  rw [List.mem_map]
  constructor
  · rintro ⟨d2, hd2, heq⟩
    injection heq with h1 h2
    subst h1
    exact ⟨hd2, h2.symm⟩
  · rintro ⟨hd, rfl⟩
    exact ⟨d, hd, rfl⟩

theorem groupsByDate_pairwise_ne (items : List Item) :
    (groupsByDate items).Pairwise (fun g1 g2 => g1.1 ≠ g2.1) := by
  unfold groupsByDate
  exact List.Pairwise.map _ (fun a b hab => hab) (keyList_nodup items)

theorem dateLe_trans : ∀ a b c : String × List Item,
    dateLe a b = true → dateLe b c = true → dateLe a c = true := by
  intro a b c h1 h2
  simp only [dateLe, decide_eq_true_eq] at h1 h2 ⊢
  exact le_trans h1 h2

theorem dateLe_total : ∀ a b : String × List Item, (dateLe a b || dateLe b a) = true := by
  intro a b
  simp only [dateLe, Bool.or_eq_true, decide_eq_true_eq]
  exact le_total a.1 b.1

theorem sortedGroups_pairwise_lt (items : List Item) :
    (sortedGroups items).Pairwise (fun g1 g2 => g1.1 < g2.1) := by
  have hs := @List.sorted_mergeSort (String × List Item) dateLe dateLe_trans dateLe_total
    (groupsByDate items)
  have hne : (sortedGroups items).Pairwise (fun g1 g2 => g1.1 ≠ g2.1) :=
    (List.Perm.pairwise_iff (fun hab => Ne.symm hab)
      (List.mergeSort_perm (groupsByDate items) dateLe)).mpr
      (groupsByDate_pairwise_ne items)
  have hboth := hne.and hs
  refine hboth.imp ?_
  rintro a b ⟨h1, h2⟩
  simp only [dateLe, decide_eq_true_eq] at h2
  exact lt_of_le_of_ne h2 h1

/-- C2 (amended): for an AOI of nonzero area, the selection returns a
mapping (raising no error) that groups the items by the calendar-day
part of their timestamp, contains a date exactly when that date's merged
footprint fully covers the AOI per the 99.9-percent criterion, lists the
dates in strictly ascending order, and is empty when no items are given.
(The original claim's universal AOI is false: a zero-area AOI intersected
by a tile makes the coverage check raise, see the counterexample.) -/
theorem claim2_selection_spec (items : List Item) (aoi : Geom) (h : area aoi ≠ 0) :
    ∃ res, search_sentinel2_images items aoi = some res ∧
      (items = [] → res = []) ∧
      res.Pairwise (fun g1 g2 => g1.1 < g2.1) ∧
      ∀ d its, (d, its) ∈ res ↔
        (its = groupFor items d ∧ its ≠ [] ∧
          fully_covers aoi (unary_union (its.map Item.geom)) = true) := by
  refine ⟨(sortedGroups items).filter
      (fun g => fully_covers aoi (unary_union (g.2.map Item.geom))), ?_, ?_, ?_, ?_⟩
  · exact selectDates_eq aoi h (sortedGroups items)
  · intro hnil
    subst hnil
    simp [sortedGroups, groupsByDate, keyList, List.mergeSort_nil]
  · exact (sortedGroups_pairwise_lt items).filter _
  · intro d its
    rw [List.mem_filter]
    have hmem : (d, its) ∈ sortedGroups items ↔ (d, its) ∈ groupsByDate items :=
      (List.mergeSort_perm (groupsByDate items) dateLe).mem_iff
    rw [hmem, mem_groupsByDate]
    constructor
    · rintro ⟨⟨hd, rfl⟩, hcov⟩
      refine ⟨rfl, ?_, hcov⟩
      obtain ⟨it, hit, hdate⟩ := (keyList_mem items d).mp hd
      intro hnil
      have := List.filter_eq_nil_iff.mp hnil it hit
      rw [hdate] at this
      exact this (by simp)
    · rintro ⟨rfl, hne2, hcov⟩
      refine ⟨⟨?_, rfl⟩, hcov⟩
      obtain ⟨x, hx⟩ := List.exists_mem_of_ne_nil _ hne2
      obtain ⟨hx1, hx2⟩ := List.mem_filter.mp hx
      exact (keyList_mem items d).mpr ⟨x, hx1, by simpa using hx2⟩

/-- C2 counterexample: a zero-area AOI (a single point) with one tile
whose footprint contains it makes the selection raise (return `none`)
instead of returning a mapping. -/
theorem claim2_counterexample :
    search_sentinel2_images [sampleItem] ptOrigin = none := by
  have hdate : dateOf sampleItem = "2024-01-01" := by decide
  have hsg : sortedGroups [sampleItem] = [("2024-01-01", [sampleItem])] := by
    unfold sortedGroups groupsByDate keyList groupFor
    simp [hdate]
  unfold search_sentinel2_images
  rw [hsg]
  have hcc : check_coverage ptOrigin (unary_union ([sampleItem].map Item.geom)) = none := by
    have h1 : unary_union ([sampleItem].map Item.geom) = cellOrigin := by
      simp [unary_union, sampleItem, gUnion, cellOrigin]
    rw [h1]
    have h2 : gIntersects cellOrigin ptOrigin = true := by decide
    have h3 : area ptOrigin = 0 := by simp [area, ptOrigin]
    simp [check_coverage, h2, h3]
  rw [selectDates.eq_def]
  dsimp only
  rw [hcc]

/-- C2 witness: the selection theorem instantiated at the unit-cell AOI
and the single sample item. -/
theorem claim2_witness :
    ∃ res, search_sentinel2_images [sampleItem] cellOrigin = some res := by
  obtain ⟨res, he, _⟩ := claim2_selection_spec [sampleItem] cellOrigin
    (by simp [area, cellOrigin])
  exact ⟨res, he⟩
